import Mathlib

/-!
Verification of the RADIUS (RFC 2865) codec and authentication primitives
of the health-check subsystem.  The implementation under test is not part
of the visible sources (only its test vectors are), so the definitions
below are modelled from the specification and checked against the captured
test vectors.
-/

set_option maxRecDepth 4000

/-- Reduction of a machine word modulo 2^32. -/
def m32 (n : Nat) : Nat := n % 4294967296

/-- 32-bit left rotation of a word already reduced modulo 2^32. -/
def rotl32 (x s : Nat) : Nat := m32 (x <<< s) ||| (x >>> (32 - s))

/-- Modelled from the spec: the MD5 round constants (RFC 1321), used by the
password obfuscator and authenticator calculator whose implementation is
not among the visible sources. -/
def md5K : List Nat :=
  [0xd76aa478, 0xe8c7b756, 0x242070db, 0xc1bdceee,
   0xf57c0faf, 0x4787c62a, 0xa8304613, 0xfd469501,
   0x698098d8, 0x8b44f7af, 0xffff5bb1, 0x895cd7be,
   0x6b901122, 0xfd987193, 0xa679438e, 0x49b40821,
   0xf61e2562, 0xc040b340, 0x265e5a51, 0xe9b6c7aa,
   0xd62f105d, 0x02441453, 0xd8a1e681, 0xe7d3fbc8,
   0x21e1cde6, 0xc33707d6, 0xf4d50d87, 0x455a14ed,
   0xa9e3e905, 0xfcefa3f8, 0x676f02d9, 0x8d2a4c8a,
   0xfffa3942, 0x8771f681, 0x6d9d6122, 0xfde5380c,
   0xa4beea44, 0x4bdecfa9, 0xf6bb4b60, 0xbebfbc70,
   0x289b7ec6, 0xeaa127fa, 0xd4ef3085, 0x04881d05,
   0xd9d4d039, 0xe6db99e5, 0x1fa27cf8, 0xc4ac5665,
   0xf4292244, 0x432aff97, 0xab9423a7, 0xfc93a039,
   0x655b59c3, 0x8f0ccc92, 0xffeff47d, 0x85845dd1,
   0x6fa87e4f, 0xfe2ce6e0, 0xa3014314, 0x4e0811a1,
   0xf7537e82, 0xbd3af235, 0x2ad7d2bb, 0xeb86d391]

/-- Modelled from the spec: the MD5 per-round left-rotation amounts. -/
def md5S : List Nat :=
  [7, 12, 17, 22, 7, 12, 17, 22, 7, 12, 17, 22, 7, 12, 17, 22,
   5, 9, 14, 20, 5, 9, 14, 20, 5, 9, 14, 20, 5, 9, 14, 20,
   4, 11, 16, 23, 4, 11, 16, 23, 4, 11, 16, 23, 4, 11, 16, 23,
   6, 10, 15, 21, 6, 10, 15, 21, 6, 10, 15, 21, 6, 10, 15, 21]

/-- Modelled from the spec: the MD5 nonlinear function of round `i`. -/
def md5F (i b c d : Nat) : Nat :=
  if i < 16 then (b &&& c) ||| ((4294967295 ^^^ b) &&& d)
  else if i < 32 then (d &&& b) ||| ((4294967295 ^^^ d) &&& c)
  else if i < 48 then b ^^^ c ^^^ d
  else c ^^^ (b ||| (4294967295 ^^^ d))

/-- Modelled from the spec: the MD5 message-word index for round `i`. -/
def md5g (i : Nat) : Nat :=
  if i < 16 then i
  else if i < 32 then (5 * i + 1) % 16
  else if i < 48 then (3 * i + 5) % 16
  else (7 * i) % 16

/-- One MD5 round applied to the running `(a, b, c, d)` state. -/
def md5Round (M : List Nat) (st : Nat × Nat × Nat × Nat) (i : Nat) :
    Nat × Nat × Nat × Nat :=
  let a := st.1
  let b := st.2.1
  let c := st.2.2.1
  let d := st.2.2.2
  let tmp := m32 (a + md5F i b c d + md5K.getD i 0 + M.getD (md5g i) 0)
  (d, m32 (b + rotl32 tmp (md5S.getD i 0)), b, c)

/-- One 16-word MD5 block: 64 rounds followed by the feed-forward sums. -/
def md5Block (st : Nat × Nat × Nat × Nat) (M : List Nat) :
    Nat × Nat × Nat × Nat :=
  let r := (List.range 64).foldl (md5Round M) st
  (m32 (st.1 + r.1), m32 (st.2.1 + r.2.1),
   m32 (st.2.2.1 + r.2.2.1), m32 (st.2.2.2 + r.2.2.2))

/-- Little-endian grouping of a byte sequence into 32-bit words. -/
def leWords : List Nat → List Nat
  | a :: b :: c :: d :: rest =>
      (a + 256 * b + 65536 * c + 16777216 * d) :: leWords rest
  | _ => []

/-- The four little-endian bytes of a 32-bit word. -/
def leBytes4 (n : Nat) : List Nat :=
  [n % 256, n / 256 % 256, n / 65536 % 256, n / 16777216 % 256]

/-- Number of zero bytes MD5 padding inserts after the `0x80` marker. -/
def md5PadLen (n : Nat) : Nat := (120 - (n + 1) % 64) % 64

/-- The eight little-endian bytes of the 64-bit bit-length trailer. -/
def md5LenBytes (n : Nat) : List Nat :=
  let t := (8 * n) % 18446744073709551616
  [t % 256, t / 256 % 256, t / 65536 % 256, t / 16777216 % 256,
   t / 4294967296 % 256, t / 1099511627776 % 256,
   t / 281474976710656 % 256, t / 72057594037927936 % 256]

/-- MD5 message padding: `0x80`, zeros to 56 mod 64, then the bit length. -/
def md5Pad (msg : List Nat) : List Nat :=
  msg ++ 128 :: List.replicate (md5PadLen msg.length) 0 ++
    md5LenBytes msg.length

/-- Digest loop over the padded message, one 16-word block at a time;
the first argument is structural fuel, always at least the word count. -/
def md5Loop : Nat → Nat × Nat × Nat × Nat → List Nat → Nat × Nat × Nat × Nat
  | 0, st, _ => st
  | _ + 1, st, [] => st
  | f + 1, st, w :: ws =>
      md5Loop f (md5Block st ((w :: ws).take 16)) ((w :: ws).drop 16)

/-- Modelled from the spec: the 16-byte MD5 digest of a byte sequence
(RFC 1321), the hash underlying the RFC 2865 §5.2 obfuscator and the
response authenticator; its implementation is not among the visible
sources. -/
def md5 (msg : List Nat) : List Nat :=
  let ws := leWords (md5Pad msg)
  let st := md5Loop ws.length (0x67452301, 0xefcdab89, 0x98badcfe, 0x10325476) ws
  leBytes4 st.1 ++ leBytes4 st.2.1 ++ leBytes4 st.2.2.1 ++ leBytes4 st.2.2.2

/-- Modelled from the spec: the fixed 20-byte RADIUS packet header
(code, identifier, big-endian length, 16-byte authenticator); the
implementation is not among the visible sources.  The authenticator is a
byte list whose well-formedness fixes its length at 16. -/
structure radiusHeader where
  code : Nat
  identifier : Nat
  length : Nat
  authenticator : List Nat
deriving DecidableEq, Repr

/-- Modelled from the spec: one RADIUS type-length-value attribute; the
wire length byte counts the two header bytes, so `length = value.length + 2`
on well-formed attributes. -/
structure radiusAttribute where
  raType : Nat
  length : Nat
  value : List Nat
deriving DecidableEq, Repr

/-- Modelled from the spec: a decoded RADIUS packet, a header followed by
the attributes in wire order. -/
structure radiusPacket where
  header : radiusHeader
  attributes : List radiusAttribute
deriving DecidableEq, Repr

/-- Modelled from the spec: the decoder's malformed-input error taxonomy. -/
inductive RadiusError where
  | truncatedHeader
  | invalidLength
  | truncatedAttribute
  | invalidAttributeLength
  | lengthMismatch
deriving DecidableEq, Repr

/-- Byte-wise exclusive or of two byte sequences. -/
def xorBytes (a b : List Nat) : List Nat := List.zipWith Nat.xor a b

/-- Number of 16-byte blocks covering `n` bytes. -/
def numBlocks (n : Nat) : Nat := (n + 15) / 16

/-- Partition of a byte sequence into `k` consecutive 16-byte blocks. -/
def toBlocks : Nat → List Nat → List (List Nat)
  | 0, _ => []
  | k + 1, l => l.take 16 :: toBlocks k (l.drop 16)

/-- Modelled from the spec: the RFC 2865 §5.2 chain over the password
blocks — each block is xored with the MD5 of the secret followed by the
previous output block (the request authenticator seeds the first link). -/
def radiusCrypt (secret : List Nat) : List Nat → List (List Nat) → List Nat
  | _, [] => []
  | prev, p :: ps =>
      let o := xorBytes p (md5 (secret ++ prev))
      o ++ radiusCrypt secret o ps

/-- Modelled from the spec: the password obfuscator `radiusPassword`
(RFC 2865 §5.2), whose implementation is not among the visible sources.
An empty password gives an empty output; otherwise the password is padded
with zero bytes to a multiple of 16 and chained through `radiusCrypt`. -/
def radiusPassword (passwd secret auth : List Nat) : List Nat :=
  if passwd = [] then []
  else
    let padded := passwd ++ List.replicate ((16 - passwd.length % 16) % 16) 0
    radiusCrypt secret auth (toBlocks (numBlocks passwd.length) padded)

/-- Wire bytes of one attribute: type, length byte, then the value. -/
def encodeAttr (a : radiusAttribute) : List Nat :=
  a.raType :: a.length :: a.value

/-- Wire bytes of an attribute sequence, in order. -/
def encodeAttrs : List radiusAttribute → List Nat
  | [] => []
  | a :: as => encodeAttr a ++ encodeAttrs as

/-- Total wire size of an attribute sequence (2 header bytes per attribute
plus the value bytes). -/
def attrsWireSize : List radiusAttribute → Nat
  | [] => 0
  | a :: as => (2 + a.value.length) + attrsWireSize as

/-- Modelled from the spec: the decoder's attribute loop.  `rem` is the
count of attribute-region bytes still to consume and `avail` the bytes
actually available; the first argument is structural fuel, kept at least
`rem` by every caller.  A length byte below 2 is `invalidAttributeLength`,
running out of supplied bytes is `truncatedAttribute`, and an attribute
overrunning the declared region is `lengthMismatch`. -/
def parseAttrsF : Nat → Nat → List Nat → Except RadiusError (List radiusAttribute)
  | _, 0, _ => .ok []
  | 0, _ + 1, _ => .error .truncatedAttribute
  | _ + 1, 1, _ => .error .truncatedAttribute
  | f + 1, rem + 2, t :: l :: rest =>
      if l < 2 then .error .invalidAttributeLength
      else if rest.length < l - 2 then .error .truncatedAttribute
      else if rem + 2 < l then .error .lengthMismatch
      else
        match parseAttrsF f (rem + 2 - l) (rest.drop (l - 2)) with
        | .ok attrs => .ok (⟨t, l, rest.take (l - 2)⟩ :: attrs)
        | .error e => .error e
  | _ + 1, _ + 2, _ => .error .truncatedAttribute

/-- Modelled from the spec: the packet decoder.  Reads the 20-byte header
(`truncatedHeader` if fewer bytes are supplied), validates the declared
length against the 20-byte minimum (`invalidLength`), and parses exactly
`length - 20` bytes of attributes; bytes beyond the declared length are
ignored. -/
def radiusDecode (input : List Nat) : Except RadiusError radiusPacket :=
  match input with
  | c :: i :: hi :: lo :: rest =>
      if rest.length < 16 then .error .truncatedHeader
      else
        let len := hi * 256 + lo
        if len < 20 then .error .invalidLength
        else
          match parseAttrsF (len - 20) (len - 20) (rest.drop 16) with
          | .ok attrs => .ok ⟨⟨c, i, len, rest.take 16⟩, attrs⟩
          | .error e => .error e
  | _ => .error .truncatedHeader

/-- Modelled from the spec: the packet encoder, the inverse of the decoder.
The length field is recomputed from the actual attribute bytes rather than
taken from the caller-supplied header. -/
def radiusEncode (p : radiusPacket) : List Nat :=
  let len := 20 + attrsWireSize p.attributes
  p.header.code :: p.header.identifier :: (len / 256 % 256) :: (len % 256) ::
    (p.header.authenticator ++ encodeAttrs p.attributes)

/-- Modelled from the spec: the response authenticator calculator —
the MD5 of code, identifier, big-endian length, the request authenticator
(in place of the packet's own), the attribute bytes in wire order, and the
shared secret. -/
def responseAuthenticator (p : radiusPacket) (reqAuth secret : List Nat) :
    List Nat :=
  md5 ([p.header.code, p.header.identifier,
        p.header.length / 256 % 256, p.header.length % 256] ++
       reqAuth ++ encodeAttrs p.attributes ++ secret)

/-- A packet is well formed when every byte-valued field fits in a byte,
the authenticator has exactly 16 bytes, every attribute's stored length
byte is consistent with its value and fits in a byte, and the header
length is consistent with the attributes' total wire size (which also
bounds it below 65536). -/
def radiusWellFormed (p : radiusPacket) : Prop :=
  p.header.code < 256 ∧ p.header.identifier < 256 ∧
  p.header.authenticator.length = 16 ∧
  (∀ b ∈ p.header.authenticator, b < 256) ∧
  p.header.length = 20 + attrsWireSize p.attributes ∧
  p.header.length < 65536 ∧
  (∀ a ∈ p.attributes, a.raType < 256 ∧ a.length = a.value.length + 2 ∧
     a.length < 256 ∧ ∀ b ∈ a.value, b < 256)

instance (p : radiusPacket) : Decidable (radiusWellFormed p) :=
  inferInstanceAs (Decidable (p.header.code < 256 ∧ p.header.identifier < 256 ∧
    p.header.authenticator.length = 16 ∧
    (∀ b ∈ p.header.authenticator, b < 256) ∧
    p.header.length = 20 + attrsWireSize p.attributes ∧
    p.header.length < 65536 ∧
    (∀ a ∈ p.attributes, a.raType < 256 ∧ a.length = a.value.length + 2 ∧
       a.length < 256 ∧ ∀ b ∈ a.value, b < 256)))

/-- The request authenticator `testAuthenticator1` of the captured vectors. -/
def testAuth1 : List Nat :=
  [0x00, 0x01, 0x02, 0x03, 0x04, 0x05, 0x06, 0x07,
   0x08, 0x09, 0x0a, 0x0b, 0x0c, 0x0d, 0x0e, 0x0f]

/-- The request authenticator `testAuthenticator2` of the captured vectors. -/
def testAuth2 : List Nat :=
  [0xff, 0xff, 0xff, 0xff, 0xff, 0xff, 0xff, 0xff,
   0xff, 0xff, 0xff, 0xff, 0xff, 0xff, 0xff, 0xff]

/-- The shared secret of the captured vectors, the bytes of the string
`mySuperRADIUSSecret!`. -/
def testSecret : List Nat :=
  [0x6d, 0x79, 0x53, 0x75, 0x70, 0x65, 0x72, 0x52, 0x41, 0x44,
   0x49, 0x55, 0x53, 0x53, 0x65, 0x63, 0x72, 0x65, 0x74, 0x21]

/-- The 47-byte captured response packet of the first authenticator vector. -/
def responseBytes47 : List Nat :=
  [0x03, 0x76, 0x00, 0x33, 0x89, 0xf1, 0xd6, 0xe2,
   0xbb, 0xfd, 0x53, 0x37, 0x16, 0x64, 0x90, 0xe2,
   0x38, 0x20, 0xcd, 0x26, 0x12, 0x1f, 0x72, 0x61,
   0x64, 0x69, 0x75, 0x73, 0x31, 0x2d, 0x34, 0x2e,
   0x74, 0x77, 0x64, 0x2e, 0x63, 0x6f, 0x72, 0x70,
   0x2e, 0x67, 0x6f, 0x6f, 0x67, 0x6c, 0x65, 0x2e,
   0x63, 0x6f, 0x6d]

/-- The structured form of `responseBytes47`. -/
def responsePacket47 : radiusPacket :=
  ⟨⟨0x03, 0x76, 0x33,
    [0x89, 0xf1, 0xd6, 0xe2, 0xbb, 0xfd, 0x53, 0x37,
     0x16, 0x64, 0x90, 0xe2, 0x38, 0x20, 0xcd, 0x26]⟩,
   [⟨0x12, 0x1f,
     [0x72, 0x61, 0x64, 0x69, 0x75, 0x73, 0x31, 0x2d,
      0x34, 0x2e, 0x74, 0x77, 0x64, 0x2e, 0x63, 0x6f,
      0x72, 0x70, 0x2e, 0x67, 0x6f, 0x6f, 0x67, 0x6c,
      0x65, 0x2e, 0x63, 0x6f, 0x6d]⟩]⟩

/-- The 101-byte captured Access-Request-style packet. -/
def requestBytes101 : List Nat :=
  [0x01, 0x13, 0x00, 0x65, 0x07, 0x5a, 0x3d, 0xaa,
   0xe3, 0x67, 0xb4, 0xb0, 0x3b, 0xdb, 0x03, 0xcf,
   0xb1, 0x11, 0x0c, 0xa7, 0x20, 0x0e, 0x72, 0x61,
   0x64, 0x69, 0x75, 0x73, 0x70, 0x72, 0x6f, 0x62,
   0x65, 0x72, 0x01, 0x0f, 0x72, 0x61, 0x64, 0x69,
   0x75, 0x73, 0x2d, 0x70, 0x72, 0x6f, 0x62, 0x65,
   0x72, 0x02, 0x22, 0x85, 0x71, 0xb2, 0x4f, 0x7e,
   0x81, 0x54, 0x59, 0x5a, 0x12, 0x58, 0xb0, 0x71,
   0x93, 0xb7, 0x36, 0xc9, 0xdd, 0x65, 0x2f, 0x6f,
   0x07, 0x87, 0xe9, 0xce, 0x34, 0x8b, 0xc4, 0xef,
   0xf6, 0x19, 0xfd, 0x04, 0x06, 0xac, 0x17, 0x00,
   0x08, 0x05, 0x06, 0x00, 0x00, 0x00, 0x2a, 0x06,
   0x06, 0x00, 0x00, 0x00, 0x01]

/-- The structured form of `requestBytes101`: six attributes in wire order. -/
def requestPacket101 : radiusPacket :=
  ⟨⟨0x01, 0x13, 0x65,
    [0x07, 0x5a, 0x3d, 0xaa, 0xe3, 0x67, 0xb4, 0xb0,
     0x3b, 0xdb, 0x03, 0xcf, 0xb1, 0x11, 0x0c, 0xa7]⟩,
   [⟨0x20, 0x0e,
     [0x72, 0x61, 0x64, 0x69, 0x75, 0x73, 0x70, 0x72,
      0x6f, 0x62, 0x65, 0x72]⟩,
    ⟨0x01, 0x0f,
     [0x72, 0x61, 0x64, 0x69, 0x75, 0x73, 0x2d, 0x70,
      0x72, 0x6f, 0x62, 0x65, 0x72]⟩,
    ⟨0x02, 0x22,
     [0x85, 0x71, 0xb2, 0x4f, 0x7e, 0x81, 0x54, 0x59,
      0x5a, 0x12, 0x58, 0xb0, 0x71, 0x93, 0xb7, 0x36,
      0xc9, 0xdd, 0x65, 0x2f, 0x6f, 0x07, 0x87, 0xe9,
      0xce, 0x34, 0x8b, 0xc4, 0xef, 0xf6, 0x19, 0xfd]⟩,
    ⟨0x04, 0x06, [0xac, 0x17, 0x00, 0x08]⟩,
    ⟨0x05, 0x06, [0x00, 0x00, 0x00, 0x2a]⟩,
    ⟨0x06, 0x06, [0x00, 0x00, 0x00, 0x01]⟩]⟩

/-- The 16-byte password of the captured vectors, the bytes of
`0123456789abcdef`. -/
def testPasswd16 : List Nat :=
  [0x30, 0x31, 0x32, 0x33, 0x34, 0x35, 0x36, 0x37,
   0x38, 0x39, 0x61, 0x62, 0x63, 0x64, 0x65, 0x66]

/-- The 17-byte password of the captured vectors, `0123456789abcdef!`. -/
def testPasswd17 : List Nat := testPasswd16 ++ [0x21]

/-- An MD5 digest always has exactly 16 bytes. -/
theorem md5_length (msg : List Nat) : (md5 msg).length = 16 := by
  simp [md5, leBytes4]

/-- The xor of two byte sequences is as long as the shorter one. -/
theorem xorBytes_length (a b : List Nat) :
    (xorBytes a b).length = min a.length b.length := by
  simp [xorBytes]

/-- Byte-wise xor against a fixed mask is injective in the other operand
when all three sequences share a length. -/
theorem xorBytes_inj : ∀ p c1 c2 : List Nat, c1.length = p.length →
    c2.length = p.length → xorBytes p c1 = xorBytes p c2 → c1 = c2
  | [], [], [], _, _, _ => rfl
  | x :: p, a :: c1, b :: c2, h1, h2, h => by
    simp only [xorBytes, List.zipWith_cons_cons, List.cons.injEq] at h
    have hab : a = b := by
      have h3 : x ^^^ a = x ^^^ b := h.1
      have h4 := congrArg (fun y => x ^^^ y) h3
      simpa [← Nat.xor_assoc, Nat.xor_self, Nat.zero_xor] using h4
    have ht : c1 = c2 :=
      xorBytes_inj p c1 c2 (by simpa using h1) (by simpa using h2) h.2
    rw [hab, ht]

/-- `toBlocks k` always produces exactly `k` blocks. -/
theorem toBlocks_length : ∀ (k : Nat) (l : List Nat),
    (toBlocks k l).length = k
  | 0, _ => rfl
  | k + 1, l => by simp [toBlocks, toBlocks_length k]

/-- On an input of exactly `16 * k` bytes, every block produced by
`toBlocks k` has exactly 16 bytes. -/
theorem toBlocks_block_length : ∀ (k : Nat) (l : List Nat),
    l.length = 16 * k → ∀ b ∈ toBlocks k l, b.length = 16
  | 0, _, _, _, hb => by simp [toBlocks] at hb
  | k + 1, l, hl, b, hb => by
    simp only [toBlocks, List.mem_cons] at hb
    rcases hb with hb | hb
    · subst hb
      simp only [List.length_take, hl]
      omega
    · exact toBlocks_block_length k (l.drop 16)
        (by simp [List.length_drop, hl]; omega) b hb

/-- Partitioning splits over an append whose first part is a whole number
of blocks. -/
theorem toBlocks_append : ∀ (k : Nat) (l1 : List Nat) (m : Nat) (l2 : List Nat),
    l1.length = 16 * k →
    toBlocks (k + m) (l1 ++ l2) = toBlocks k l1 ++ toBlocks m l2
  | 0, l1, m, l2, h => by
    have : l1 = [] := List.eq_nil_of_length_eq_zero (by omega)
    subst this
    simp [toBlocks]
  | k + 1, l1, m, l2, h => by
    have h16 : 16 ≤ l1.length := by omega
    have hstep : k + 1 + m = (k + m) + 1 := by omega
    rw [hstep]
    show (l1 ++ l2).take 16 :: toBlocks (k + m) ((l1 ++ l2).drop 16) =
      (l1.take 16 :: toBlocks k (l1.drop 16)) ++ toBlocks m l2
    rw [List.take_append_of_le_length h16, List.drop_append_of_le_length h16,
      toBlocks_append k (l1.drop 16) m l2 (by rw [List.length_drop, h]; omega)]
    rfl

/-- The chained obfuscation of 16-byte blocks emits 16 bytes per block. -/
theorem radiusCrypt_length : ∀ (bs : List (List Nat)) (secret prev : List Nat),
    (∀ b ∈ bs, b.length = 16) →
    (radiusCrypt secret prev bs).length = 16 * bs.length
  | [], _, _, _ => rfl
  | p :: ps, secret, prev, h => by
    have hp : p.length = 16 := h p (by simp)
    simp only [radiusCrypt, List.length_append, xorBytes_length, md5_length,
      hp, radiusCrypt_length ps secret _ (fun b hb => h b (List.mem_cons_of_mem _ hb)),
      List.length_cons]
    omega

/-- The chain over an appended block list is the chain over the first part
followed by a chain over the second, seeded by some carried-over block. -/
theorem radiusCrypt_append : ∀ (bs1 : List (List Nat)) (secret prev : List Nat)
    (bs2 : List (List Nat)), ∃ q, radiusCrypt secret prev (bs1 ++ bs2) =
      radiusCrypt secret prev bs1 ++ radiusCrypt secret q bs2
  | [], secret, prev, bs2 => ⟨prev, by simp [radiusCrypt]⟩
  | p :: ps, secret, prev, bs2 => by
    obtain ⟨q, hq⟩ :=
      radiusCrypt_append ps secret (xorBytes p (md5 (secret ++ prev))) bs2
    exact ⟨q, by
      simp only [List.cons_append, radiusCrypt, List.append_eq, hq,
        List.append_assoc]⟩

/-- The zero padding brings a nonempty password to exactly
`16 * numBlocks` bytes. -/
theorem padded_length (pw : List Nat) :
    (pw ++ List.replicate ((16 - pw.length % 16) % 16) 0).length =
      16 * numBlocks pw.length := by
  simp only [List.length_append, List.length_replicate, numBlocks]
  omega

/-- Claim C4: for every non-empty password, the obfuscated output has
exactly `ceil(len/16) * 16` bytes — the password padded with zero bytes to
the next multiple of 16, a length already a multiple of 16 staying as is. -/
theorem radiusPassword_length (pw secret auth : List Nat) (h : pw ≠ []) :
    (radiusPassword pw secret auth).length = (pw.length + 15) / 16 * 16 := by
  rw [radiusPassword, if_neg h]
  rw [radiusCrypt_length _ _ _ (toBlocks_block_length _ _ (padded_length pw)),
    toBlocks_length]
  simp [numBlocks]
  omega

/-- Witness for C4 at the captured vectors: a 1-byte password obfuscates
to 16 bytes, and the 17-byte captured password to 32. -/
theorem radiusPassword_length_witness :
    (radiusPassword [0x61] [0x73, 0x65, 0x63, 0x72, 0x65, 0x74]
       testAuth1).length = 16 ∧
    (radiusPassword testPasswd17 testSecret testAuth1).length = 32 := by
  constructor
  · rw [radiusPassword_length _ _ _ (by decide)]
    rfl
  · rw [radiusPassword_length _ _ _ (by decide)]
    rfl

/-- Claim C5: obfuscating the empty password yields the empty byte
sequence, whatever the secret and request authenticator. -/
theorem radiusPassword_empty (secret auth : List Nat) :
    radiusPassword [] secret auth = [] := rfl

/-- Counterexample to claim C6 as stated: for the empty password the two
distinct captured authenticators produce identical (empty) outputs, so not
every fixed password separates distinct request authenticators. -/
theorem radiusPassword_seed_counterexample :
    testAuth1 ≠ testAuth2 ∧
    radiusPassword [] testSecret testAuth1 =
      radiusPassword [] testSecret testAuth2 := ⟨by decide, rfl⟩

/-- Claim C6 (amended): for every fixed non-empty password and secret,
request authenticators whose first chain links `MD5(secret ++ auth)`
differ produce different obfuscated outputs — the authenticator seeds the
first link of the MD5 chain. -/
theorem radiusPassword_seed (pw secret a1 a2 : List Nat) (hpw : pw ≠ [])
    (hseed : md5 (secret ++ a1) ≠ md5 (secret ++ a2)) :
    radiusPassword pw secret a1 ≠ radiusPassword pw secret a2 := by
  intro heq
  rw [radiusPassword, if_neg hpw, radiusPassword, if_neg hpw] at heq
  have hn : 1 ≤ numBlocks pw.length := by
    have := List.length_pos.mpr hpw
    simp only [numBlocks]
    omega
  obtain ⟨m, hm⟩ : ∃ m, numBlocks pw.length = m + 1 :=
    ⟨numBlocks pw.length - 1, by omega⟩
  rw [hm] at heq
  have hplen : (pw ++ List.replicate ((16 - pw.length % 16) % 16) 0).length =
      16 * (m + 1) := by rw [padded_length, hm]
  have hp16 : ((pw ++ List.replicate ((16 - pw.length % 16) % 16) 0).take
      16).length = 16 := by
    rw [List.length_take, hplen]
    omega
  simp only [toBlocks, radiusCrypt] at heq
  have hlen1 : (xorBytes ((pw ++ List.replicate ((16 - pw.length % 16) % 16)
      0).take 16) (md5 (secret ++ a1))).length = 16 := by
    rw [xorBytes_length, md5_length, hp16]
    omega
  have hlen2 : (xorBytes ((pw ++ List.replicate ((16 - pw.length % 16) % 16)
      0).take 16) (md5 (secret ++ a2))).length = 16 := by
    rw [xorBytes_length, md5_length, hp16]
    omega
  have hfirst := congrArg (List.take 16) heq
  rw [List.take_left' hlen1, List.take_left' hlen2] at hfirst
  exact hseed (xorBytes_inj _ _ _ (by rw [md5_length, hp16])
    (by rw [md5_length, hp16]) hfirst)

/-- Witness for the amended C6 at the captured vectors: the 17-byte
captured password obfuscates differently under the two distinct captured
authenticators. -/
theorem radiusPassword_seed_witness :
    radiusPassword testPasswd17 testSecret testAuth1 ≠
      radiusPassword testPasswd17 testSecret testAuth2 :=
  radiusPassword_seed testPasswd17 testSecret testAuth1 testAuth2
    (by decide) (by decide)

/-- Claim C10: for a password whose length is a positive multiple of 16,
every extension of the password obfuscates to an extension of the original
output — each output block depends only on the blocks at or before it. -/
theorem radiusPassword_extension (secret auth p1 tail : List Nat)
    (h1 : p1 ≠ []) (h16 : p1.length % 16 = 0) :
    ∃ t2, radiusPassword (p1 ++ tail) secret auth =
      radiusPassword p1 secret auth ++ t2 := by
  have hn1 : 0 < p1.length := List.length_pos.mpr h1
  obtain ⟨k, hk⟩ : ∃ k, p1.length = 16 * k := ⟨p1.length / 16, by omega⟩
  have hne2 : p1 ++ tail ≠ [] := fun hcon => h1 (List.append_eq_nil.mp hcon).1
  have hpad1 : (16 - p1.length % 16) % 16 = 0 := by omega
  have hnb1 : numBlocks p1.length = k := by
    simp only [numBlocks]
    omega
  have hP1 : radiusPassword p1 secret auth =
      radiusCrypt secret auth (toBlocks k p1) := by
    rw [radiusPassword, if_neg h1, hpad1, List.replicate_zero, List.append_nil,
      hnb1]
  have hnb2 : numBlocks (p1 ++ tail).length = k + numBlocks tail.length := by
    simp only [numBlocks, List.length_append]
    omega
  have hblocks : toBlocks (numBlocks (p1 ++ tail).length)
      ((p1 ++ tail) ++
        List.replicate ((16 - (p1 ++ tail).length % 16) % 16) 0) =
      toBlocks k p1 ++ toBlocks (numBlocks tail.length)
        (tail ++ List.replicate ((16 - (p1 ++ tail).length % 16) % 16) 0) := by
    rw [List.append_assoc, hnb2, toBlocks_append k p1 _ _ hk]
  obtain ⟨q, hq⟩ := radiusCrypt_append (toBlocks k p1) secret auth
    (toBlocks (numBlocks tail.length)
      (tail ++ List.replicate ((16 - (p1 ++ tail).length % 16) % 16) 0))
  refine ⟨radiusCrypt secret q (toBlocks (numBlocks tail.length)
    (tail ++ List.replicate ((16 - (p1 ++ tail).length % 16) % 16) 0)), ?_⟩
  rw [radiusPassword, if_neg hne2, hP1]
  simp only [hblocks, hq]

/-- Witness for C10 at the captured vectors: the 16-byte captured password
extended by one byte (the 17-byte captured password) obfuscates to an
extension of the 16-byte output. -/
theorem radiusPassword_extension_witness :
    ∃ t2, radiusPassword testPasswd17 testSecret testAuth1 =
      radiusPassword testPasswd16 testSecret testAuth1 ++ t2 :=
  radiusPassword_extension testSecret testAuth1 testPasswd16 [0x21]
    (by decide) (by decide)

/-- The wire bytes of an attribute sequence total its wire size. -/
theorem encodeAttrs_length : ∀ as : List radiusAttribute,
    (encodeAttrs as).length = attrsWireSize as
  | [] => rfl
  | a :: as => by
    simp only [encodeAttrs, encodeAttr, attrsWireSize, List.length_append,
      List.length_cons, encodeAttrs_length as]
    omega

/-- The attribute loop parses its own encoding back, given enough fuel and
attributes whose stored length byte is consistent with their value. -/
theorem parseAttrsF_encode : ∀ (attrs : List radiusAttribute) (f : Nat),
    attrsWireSize attrs ≤ f →
    (∀ a ∈ attrs, a.length = a.value.length + 2) →
    parseAttrsF f (attrsWireSize attrs) (encodeAttrs attrs) = .ok attrs
  | [], f, _, _ => by simp [attrsWireSize, parseAttrsF]
  | a :: as, f, hf, hwf => by
    have hv : a.length = a.value.length + 2 := hwf a (List.mem_cons_self a as)
    have hW : attrsWireSize (a :: as) =
        (a.value.length + attrsWireSize as) + 2 := by
      simp only [attrsWireSize]
      omega
    rw [hW] at hf
    obtain ⟨f2, rfl⟩ : ∃ f2, f = f2 + 1 := ⟨f - 1, by omega⟩
    have hIH := parseAttrsF_encode as f2 (by omega)
      (fun b hb => hwf b (List.mem_cons_of_mem a hb))
    rw [hW]
    have henc : encodeAttrs (a :: as) =
        a.raType :: a.length :: (a.value ++ encodeAttrs as) := by
      simp [encodeAttrs, encodeAttr]
    rw [henc]
    have hl2 : ¬ a.length < 2 := by omega
    have hd : a.length - 2 = a.value.length := by omega
    have hrest : ¬ ((a.value ++ encodeAttrs as).length < a.value.length) := by
      rw [List.length_append]
      omega
    have hover : ¬ ((a.value.length + attrsWireSize as) + 2 < a.length) := by
      omega
    have hrem : (a.value.length + attrsWireSize as) + 2 - a.length =
        attrsWireSize as := by omega
    simp only [parseAttrsF, if_neg hl2, hd, if_neg hrest, if_neg hover, hrem,
      List.drop_left' rfl, List.take_left' rfl, hIH]

/-- Claim C2: decoding the encoding of any well-formed packet returns the
packet itself — the encoder is the exact inverse of the decoder. -/
theorem radiusRoundTrip (p : radiusPacket) (h : radiusWellFormed p) :
    radiusDecode (radiusEncode p) = .ok p := by
  obtain ⟨hcode, hid, hauth16, hauthb, hlen, hlt, hattrs⟩ := h
  have hW : attrsWireSize p.attributes ≤ 65515 := by omega
  have hrlen : ¬ ((p.header.authenticator ++ encodeAttrs p.attributes).length
      < 16) := by
    rw [List.length_append, hauth16]
    omega
  have hL2 : p.header.length / 256 % 256 * 256 + p.header.length % 256 =
      p.header.length := by omega
  have hnl2 : ¬ (p.header.length < 20) := by omega
  have hsub2 : p.header.length - 20 = attrsWireSize p.attributes := by omega
  have hok := parseAttrsF_encode p.attributes (attrsWireSize p.attributes)
    le_rfl (fun a ha => (hattrs a ha).2.1)
  simp only [radiusEncode, ← hlen]
  simp only [radiusDecode, if_neg hrlen, hL2, if_neg hnl2, hsub2,
    List.drop_left' hauth16, List.take_left' hauth16, hok]

/-- Witness for C2: the captured 47-byte response packet survives an
encode-decode round trip. -/
theorem radiusRoundTrip_witness :
    radiusDecode (radiusEncode responsePacket47) = .ok responsePacket47 :=
  radiusRoundTrip responsePacket47 (by decide)

/-- Fewer attribute-region bytes supplied than declared always makes the
attribute loop fail (with some decode error), given fuel at least `rem`. -/
theorem parseAttrsF_undersupply (f : Nat) : ∀ (rem : Nat) (avail : List Nat),
    avail.length < rem → rem ≤ f → ∃ e, parseAttrsF f rem avail = .error e := by
  induction f with
  | zero => intro rem avail h1 h2; omega
  | succ f ih =>
    intro rem avail h1 h2
    match rem, avail, h1, h2 with
    | 1, avail, _, _ => exact ⟨.truncatedAttribute, by simp [parseAttrsF]⟩
    | r + 2, [], _, _ => exact ⟨.truncatedAttribute, by simp [parseAttrsF]⟩
    | r + 2, [t], _, _ => exact ⟨.truncatedAttribute, by simp [parseAttrsF]⟩
    | r + 2, t :: l :: rest, h1, h2 => ?_
    by_cases hl : l < 2
    · exact ⟨.invalidAttributeLength, by simp [parseAttrsF, hl]⟩
    · by_cases hr : rest.length < l - 2
      · exact ⟨.truncatedAttribute, by simp [parseAttrsF, hl, hr]⟩
      · by_cases ho : r + 2 < l
        · exact ⟨.lengthMismatch, by simp [parseAttrsF, hl, hr, ho]⟩
        · have hlen : (rest.drop (l - 2)).length < r + 2 - l := by
            rw [List.length_drop]
            simp only [List.length_cons] at h1
            omega
          obtain ⟨e, he⟩ := ih (r + 2 - l) (rest.drop (l - 2)) hlen (by omega)
          exact ⟨e, by simp [parseAttrsF, hl, hr, ho, he]⟩

/-- A 22-byte buffer whose header declares 24 bytes but whose first
attribute carries length byte 0. -/
def shortBuffer22 : List Nat :=
  [0x01, 0x01, 0x00, 0x18] ++ testAuth1 ++ [0x07, 0x00]

/-- Counterexample to claim C7 as stated: this buffer supplies fewer bytes
(22) than its declared length (24), yet decode fails with
`invalidAttributeLength`, which is not a truncation error. -/
theorem radiusDecode_undersupply_counterexample :
    shortBuffer22.length < 24 ∧
    radiusDecode shortBuffer22 = .error .invalidAttributeLength ∧
    RadiusError.invalidAttributeLength ≠ RadiusError.truncatedHeader ∧
    RadiusError.invalidAttributeLength ≠ RadiusError.truncatedAttribute :=
  ⟨by decide, rfl, by decide, by decide⟩

/-- Claim C7 (amended): whenever a buffer supplies fewer bytes than its
declared header length, decode fails with some decode error — usually a
truncation error, but `invalidAttributeLength` when a malformed attribute
length byte is reached first — and never returns a packet. -/
theorem radiusDecode_undersupply (c i hi lo : Nat) (rest : List Nat)
    (h : (c :: i :: hi :: lo :: rest).length < hi * 256 + lo) :
    ∃ e, radiusDecode (c :: i :: hi :: lo :: rest) = .error e := by
  simp only [List.length_cons] at h
  by_cases h16 : rest.length < 16
  · exact ⟨.truncatedHeader, by simp [radiusDecode, h16]⟩
  · have hnl : ¬ (hi * 256 + lo < 20) := by omega
    obtain ⟨e, he⟩ := parseAttrsF_undersupply (hi * 256 + lo - 20)
      (hi * 256 + lo - 20) (rest.drop 16)
      (by rw [List.length_drop]; omega) le_rfl
    exact ⟨e, by simp [radiusDecode, h16, hnl, he]⟩

/-- Witness for the amended C7: the 22-byte buffer declaring 24 bytes is
rejected by decode. -/
theorem radiusDecode_undersupply_witness :
    ∃ e, radiusDecode
      (0x01 :: 0x01 :: 0x00 :: 0x18 :: (testAuth1 ++ [0x07, 0x00])) =
        .error e :=
  radiusDecode_undersupply 0x01 0x01 0x00 0x18 (testAuth1 ++ [0x07, 0x00])
    (by decide)

/-- Claim C8: a buffer with fewer than the 20 header bytes always fails
with `truncatedHeader` and yields no packet. -/
theorem radiusDecode_truncatedHeader (input : List Nat)
    (h : input.length < 20) :
    radiusDecode input = .error .truncatedHeader := by
  match input, h with
  | [], _ => rfl
  | [_], _ => rfl
  | [_, _], _ => rfl
  | [_, _, _], _ => rfl
  | _ :: _ :: _ :: _ :: rest, h =>
    have hr : rest.length < 16 := by
      simp only [List.length_cons] at h
      omega
    simp [radiusDecode, hr]

/-- Witness for C8: the captured request truncated to 19 bytes fails with
`truncatedHeader`. -/
theorem radiusDecode_truncatedHeader_witness :
    radiusDecode (requestBytes101.take 19) = .error .truncatedHeader :=
  radiusDecode_truncatedHeader (requestBytes101.take 19) (by decide)

/-- Claim C9: whenever the decoder's attribute loop reaches an attribute
whose wire length byte is 0 or 1 (with at least two declared-region bytes
left), it fails with `invalidAttributeLength`. -/
theorem parseAttrsF_invalidAttributeLength (f rem t l : Nat) (rest : List Nat)
    (h : l ≤ 1) :
    parseAttrsF (f + 1) (rem + 2) (t :: l :: rest) =
      .error .invalidAttributeLength := by
  have hl : l < 2 := by omega
  simp [parseAttrsF, hl]

/-- Witness for C9: an attribute with length byte 0 at the head of a
2-byte declared region is rejected. -/
theorem parseAttrsF_invalidAttributeLength_witness :
    parseAttrsF 1 2 [0x07, 0x00] = .error .invalidAttributeLength :=
  parseAttrsF_invalidAttributeLength 0 0 0x07 0x00 [] (by decide)

/-- Claim C1: the captured 47-byte response decodes successfully, and the
response authenticator computed from the decoded packet, the original
request authenticator and the shared secret equals the packet's own
embedded authenticator, byte for byte `89 f1 d6 e2 bb fd 53 37 16 64 90 e2
38 20 cd 26`. -/
theorem responseAuthenticator_vector :
    radiusDecode responseBytes47 = .ok responsePacket47 ∧
    responseAuthenticator responsePacket47 testAuth1 testSecret =
      responsePacket47.header.authenticator ∧
    responsePacket47.header.authenticator =
      [0x89, 0xf1, 0xd6, 0xe2, 0xbb, 0xfd, 0x53, 0x37,
       0x16, 0x64, 0x90, 0xe2, 0x38, 0x20, 0xcd, 0x26] :=
  ⟨rfl, by decide, rfl⟩

/-- An 28-byte packet carrying two attributes with identical type, length
and value. -/
def dupBytes28 : List Nat :=
  [0x01, 0x02, 0x00, 0x1c] ++ testAuth1 ++
    [0x03, 0x04, 0xaa, 0xbb, 0x03, 0x04, 0xaa, 0xbb]

/-- The structured form of `dupBytes28`: both duplicate attributes kept. -/
def dupPacket28 : radiusPacket :=
  ⟨⟨0x01, 0x02, 0x1c, testAuth1⟩,
   [⟨0x03, 0x04, [0xaa, 0xbb]⟩, ⟨0x03, 0x04, [0xaa, 0xbb]⟩]⟩

/-- Claim C3: the captured 101-byte Access-Request-style packet decodes to
exactly six attributes in wire order with types `20 01 02 04 05 06`, each
with the declared length and value bytes; and a packet with two identical
attributes decodes to both, in order, neither collapsed nor deduplicated. -/
theorem radiusDecode_vector101 :
    radiusDecode requestBytes101 = .ok requestPacket101 ∧
    requestPacket101.attributes.map radiusAttribute.raType =
      [0x20, 0x01, 0x02, 0x04, 0x05, 0x06] ∧
    radiusDecode dupBytes28 = .ok dupPacket28 :=
  ⟨rfl, rfl, rfl⟩
